import Mathlib

/-!
Verification development for the FinCore-Monitoring dashboard.

The numeric values of the TypeScript source (IEEE doubles) are embedded as
rationals (ℚ).  One IEEE artefact matters and is modelled explicitly where it
occurs: in JavaScript a mean computed over an empty list is `0/0 = NaN`, and
every ordered comparison against `NaN` is false.  Rule conditions that divide
by `services.length` therefore carry an explicit nonemptiness conjunct (the
exact truth value of the JS comparison), and the aggregator's `errorRate`
is an `Option ℚ` whose `none` stands for the `NaN` produced on an empty list.

Free-text `description` strings of insights are presentation-only (they are
built with `toFixed` number formatting) and are not part of any claim; they
are omitted from the embedded `Insight` record.  All other fields are kept.
-/

/- ===================================================================
   Rule engine: src/src/components/AIAnalytics.tsx, `generateAIInsights`
   =================================================================== -/

inductive InsightType where
  | prediction
  | anomaly
  | capacity
  | health
deriving DecidableEq

inductive Severity where
  | low
  | medium
  | high
deriving DecidableEq

inductive ServiceHealth where
  | healthy
  | warning
  | error
deriving DecidableEq

/-- The fields of the `services` prop that `generateAIInsights` reads:
`responseTime`, `errorRate`, `metrics.active_connections`, `status`, `name`. -/
structure AIService where
  name : String
  status : ServiceHealth
  responseTime : ℚ
  errorRate : ℚ
  activeConnections : ℚ
deriving DecidableEq

/-- An insight record (`AIInsight` in the source); `affectedServices` embeds
the `data.affected_services` payload when the rule attaches one. -/
structure Insight where
  type : InsightType
  title : String
  confidence : ℚ
  severity : Severity
  recommendations : List String
  affectedServices : Option (List String)
deriving DecidableEq

/-- `services.reduce((sum, s) => sum + s.responseTime, 0) / services.length > 60`;
the nonemptiness conjunct encodes that the JS comparison is false when the
quotient is `0/0 = NaN`. -/
def predictionFires (services : List AIService) : Prop :=
  services ≠ [] ∧ 60 < (services.map (fun s => s.responseTime)).sum / services.length

/-- `errorRates.reduce((sum, rate) => sum + rate, 0) / errorRates.length > 0.03`,
with the same `NaN` conjunct for the empty list. -/
def anomalyFires (services : List AIService) : Prop :=
  services ≠ [] ∧ 3 / 100 < (services.map (fun s => s.errorRate)).sum / services.length

/-- `services.reduce((sum, s) => sum + s.metrics.active_connections, 0) > 150`
(no division, so the empty list needs no special case). -/
def capacityFires (services : List AIService) : Prop :=
  150 < (services.map (fun s => s.activeConnections)).sum

/-- `healthScore = healthyServices / services.length` -/
def healthScore (services : List AIService) : ℚ :=
  (services.filter (fun s => decide (s.status = ServiceHealth.healthy))).length /
    services.length

/-- `healthScore < 1.0`, with the `NaN` conjunct for the empty list. -/
def healthRuleFires (services : List AIService) : Prop :=
  services ≠ [] ∧ healthScore services < 1

instance : DecidablePred predictionFires := fun s => by
  unfold predictionFires; infer_instance

instance : DecidablePred anomalyFires := fun s => by
  unfold anomalyFires; infer_instance

instance : DecidablePred capacityFires := fun s => by
  unfold capacityFires; infer_instance

instance : DecidablePred healthRuleFires := fun s => by
  unfold healthRuleFires; infer_instance

def predictionInsight : Insight :=
  { type := InsightType.prediction
    title := "Performance Degradation Predicted"
    confidence := 87 / 100
    severity := Severity.medium
    recommendations :=
      ["Consider preemptive scaling of high-load services",
       "Review database connection pools",
       "Monitor memory usage patterns"]
    affectedServices := some ["payments", "investments"] }

def anomalyInsight : Insight :=
  { type := InsightType.anomaly
    title := "Unusual Error Pattern Detected"
    confidence := 92 / 100
    severity := Severity.high
    recommendations :=
      ["Investigate recent deployments",
       "Check external service dependencies",
       "Review error logs for common patterns"]
    affectedServices := none }

def capacityInsight : Insight :=
  { type := InsightType.capacity
    title := "Capacity Scaling Recommended"
    confidence := 78 / 100
    severity := Severity.medium
    recommendations :=
      ["Prepare horizontal scaling for payments service",
       "Increase connection pool limits",
       "Consider load balancer optimization"]
    affectedServices := none }

def healthInsight (services : List AIService) : Insight :=
  { type := InsightType.health
    title := "System Health Risk Assessment"
    confidence := 83 / 100
    severity := if healthScore services < 7 / 10 then Severity.high else Severity.medium
    recommendations :=
      ["Monitor warning services closely",
       "Prepare rollback procedures",
       "Increase monitoring frequency"]
    affectedServices :=
      some ((services.filter
        (fun s => decide (s.status ≠ ServiceHealth.healthy))).map (fun s => s.name)) }

def fallbackInsight : Insight :=
  { type := InsightType.health
    title := "System Operating Optimally"
    confidence := 95 / 100
    severity := Severity.low
    recommendations :=
      ["Maintain current monitoring levels",
       "Continue regular health checks",
       "Consider performance optimization opportunities"]
    affectedServices := none }

/-- `generateAIInsights`: the four threshold rules push their insight in
order, and if none fired the nominal fallback insight is pushed. -/
def generateAIInsights (services : List AIService) : List Insight :=
  let newInsights : List Insight :=
    (if predictionFires services then [predictionInsight] else []) ++
    (if anomalyFires services then [anomalyInsight] else []) ++
    (if capacityFires services then [capacityInsight] else []) ++
    (if healthRuleFires services then [healthInsight services] else [])
  if newInsights.length = 0 then [fallbackInsight] else newInsights

/-- The shape of the nominal fallback insight named by the spec:
type `health`, confidence 0.95, severity `low`. -/
def isNominalInsight (i : Insight) : Bool :=
  decide (i.type = InsightType.health ∧ i.confidence = 95 / 100 ∧
    i.severity = Severity.low)

/- ===================================================================
   Sample buffer: src/src/App.tsx, `generateMetricsData`
   =================================================================== -/

/-- One update of a metric series: push the new data point at the tail and,
if the length now exceeds 20, keep only the last 20 points (`slice(-20)`). -/
def pushSample (series : List ℚ) (v : ℚ) : List ℚ :=
  let s := series ++ [v]
  if s.length > 20 then s.drop (s.length - 20) else s

/-- The last `n` elements of a list, in order. -/
def lastN (n : ℕ) (l : List ℚ) : List ℚ :=
  l.drop (l.length - n)

lemma lastN_of_length_le (n : ℕ) (l : List ℚ) (h : l.length ≤ n) : lastN n l = l := by
  simp [lastN, Nat.sub_eq_zero_of_le h]

lemma length_lastN (n : ℕ) (l : List ℚ) : (lastN n l).length = min n l.length := by
  simp [lastN]
  omega

lemma pushSample_lastN (l : List ℚ) (v : ℚ) :
    pushSample (lastN 20 l) v = lastN 20 (l ++ [v]) := by
  rcases Nat.lt_or_ge l.length 20 with h | h
  · rw [lastN_of_length_le 20 l (by omega),
      lastN_of_length_le 20 (l ++ [v]) (by simp; omega)]
    have hc : ¬ ((l ++ [v]).length > 20) := by simp; omega
    simp only [pushSample]
    rw [if_neg hc]
  · have h20 : (lastN 20 l).length = 20 := by rw [length_lastN]; omega
    have hc : ((lastN 20 l) ++ [v]).length > 20 := by simp [h20]
    have hstep : ((lastN 20 l) ++ [v]).length - 20 = 1 := by simp [h20]
    calc pushSample (lastN 20 l) v
        = ((lastN 20 l) ++ [v]).drop 1 := by
          simp only [pushSample]
          rw [if_pos hc, hstep]
      _ = (lastN 20 l).drop 1 ++ [v] :=
          List.drop_append_of_le_length (by omega)
      _ = l.drop (l.length - 20 + 1) ++ [v] := by
          rw [lastN, List.drop_drop]
      _ = l.drop ((l ++ [v]).length - 20) ++ [v] := by
          have hlen : (l ++ [v]).length = l.length + 1 := by simp
          have harg : l.length - 20 + 1 = (l ++ [v]).length - 20 := by
            rw [hlen]
            omega
          rw [harg]
      _ = lastN 20 (l ++ [v]) := by
          rw [lastN, List.drop_append_of_le_length (by simp)]

lemma foldl_pushSample_lastN (vs l : List ℚ) :
    vs.foldl pushSample (lastN 20 l) = lastN 20 (l ++ vs) := by
  induction vs generalizing l with
  | nil => simp
  | cons v vs ih =>
      simp only [List.foldl_cons, pushSample_lastN]
      rw [ih (l ++ [v])]
      simp

/-- C3: series history is a strict FIFO window of capacity 20.  Starting from
the empty series the code creates (`newMetrics[metricType] = []`), after any
sequence of pushes the series is exactly the last 20 pushed values in push
order, and in particular its length never exceeds 20. -/
theorem series_fifo_window (vs : List ℚ) :
    vs.foldl pushSample [] = vs.drop (vs.length - 20) ∧
    (vs.foldl pushSample []).length ≤ 20 := by
  have h : vs.foldl pushSample (lastN 20 []) = lastN 20 ([] ++ vs) :=
    foldl_pushSample_lastN vs []
  have hbase : lastN 20 ([] : List ℚ) = [] := by simp [lastN]
  rw [hbase, List.nil_append] at h
  unfold lastN at h
  refine ⟨h, ?_⟩
  rw [h]
  simp
  omega

/-- C1: the rule engine's fallback fires if and only if none of the four
threshold rules fire — over every input service list the evaluation emits
exactly one nominal insight (type `health`, confidence 0.95, severity `low`)
when the prediction, anomaly, capacity and health conditions are all false,
and no such nominal insight otherwise. -/
theorem fallback_iff_no_rule_fires (services : List AIService) :
    (generateAIInsights services).countP isNominalInsight =
      if ¬ predictionFires services ∧ ¬ anomalyFires services ∧
         ¬ capacityFires services ∧ ¬ healthRuleFires services then 1 else 0 := by
  by_cases hp : predictionFires services <;>
  by_cases ha : anomalyFires services <;>
  by_cases hc : capacityFires services <;>
  by_cases hh : healthRuleFires services <;>
    simp [generateAIInsights, hp, ha, hc, hh, isNominalInsight,
      predictionInsight, anomalyInsight, capacityInsight, healthInsight,
      fallbackInsight, List.countP_cons, List.countP_append] <;>
    norm_num

/-- A one-service input on which the prediction rule fires: mean responseTime
100ms > 60ms, everything else nominal; the only service above the threshold
is named "Alpha". -/
def c4services : List AIService :=
  [{ name := "Alpha", status := ServiceHealth.healthy, responseTime := 100,
     errorRate := 0, activeConnections := 0 }]

/-- C4 counterexample: with mean responseTime above T1 the emitted prediction
insight names the fixed list `['payments', 'investments']`, not the services
whose responseTime is above T1 (here exactly `["Alpha"]`). -/
theorem prediction_affected_counterexample :
    generateAIInsights c4services = [predictionInsight] ∧
    predictionInsight.affectedServices = some ["payments", "investments"] ∧
    (c4services.filter (fun s => decide ((60 : ℚ) < s.responseTime))).map
        (fun s => s.name) = ["Alpha"] ∧
    (["payments", "investments"] : List String) ≠ ["Alpha"] := by
  refine ⟨?_, rfl, by decide, by decide⟩
  have hp : predictionFires c4services := by
    constructor
    · decide
    · norm_num [c4services]
  have ha : ¬ anomalyFires c4services := by
    intro h
    have := h.2
    norm_num [c4services] at this
  have hc : ¬ capacityFires c4services := by
    intro h
    norm_num [capacityFires, c4services] at h
  have hh : ¬ healthRuleFires c4services := by
    intro h
    have := h.2
    norm_num [healthScore, c4services] at this
  simp [generateAIInsights, hp, ha, hc, hh]

/-- C4 amended: the prediction rule fires exactly when the mean responseTime
across a nonempty service list exceeds 60ms, emitting one prediction insight
with confidence 0.87 and severity `medium`; its named affected services are
the constant list `['payments', 'investments']` hard-coded in the rule, not
the services above the threshold. -/
theorem prediction_rule_fixed_payload (services : List AIService) :
    (generateAIInsights services).filter
        (fun i => decide (i.type = InsightType.prediction)) =
      (if predictionFires services then [predictionInsight] else []) ∧
    predictionInsight.confidence = 87 / 100 ∧
    predictionInsight.severity = Severity.medium ∧
    predictionInsight.affectedServices = some ["payments", "investments"] := by
  refine ⟨?_, rfl, rfl, rfl⟩
  by_cases hp : predictionFires services <;>
  by_cases ha : anomalyFires services <;>
  by_cases hc : capacityFires services <;>
  by_cases hh : healthRuleFires services <;>
    simp [generateAIInsights, hp, ha, hc, hh, predictionInsight,
      anomalyInsight, capacityInsight, healthInsight, fallbackInsight,
      List.filter_append]

/- ===================================================================
   Service poller and aggregator: src/src/App.tsx, `fetchServiceHealth`
   (axios variant, lines 853-918)
   =================================================================== -/

structure ServiceConfig where
  name : String
  url : String
  description : String
deriving DecidableEq

structure ServiceMetrics where
  cpu : ℚ
  memory : ℚ
  requests_per_second : ℚ
  active_connections : ℚ
deriving DecidableEq

/-- The zero metrics object used both as the success-path default and in the
failure record. -/
def zeroMetrics : ServiceMetrics := ⟨0, 0, 0, 0⟩

/-- The JSON body of a `GET /health` response; each optional field embeds the
`data.field || default` fallback of the source (absent field ⟶ default). -/
structure HealthPayload where
  status : Option ServiceHealth
  uptime : Option String
  responseTime : Option ℚ
  errorRate : Option ℚ
  metrics : Option ServiceMetrics
deriving DecidableEq

/-- `ServiceStatus` of the source (the spec's ServiceRecord). -/
structure ServiceStatus where
  name : String
  url : String
  description : String
  status : ServiceHealth
  uptime : String
  responseTime : ℚ
  errorRate : ℚ
  metrics : ServiceMetrics
deriving DecidableEq

/-- The success branch of the poll loop: normalize the payload, defaulting
each absent field as the source does. -/
def normalizeResponse (config : ServiceConfig) (data : HealthPayload) :
    ServiceStatus :=
  { name := config.name
    url := config.url
    description := config.description
    status := data.status.getD ServiceHealth.healthy
    uptime := data.uptime.getD "99.99%"
    responseTime := data.responseTime.getD 0
    errorRate := data.errorRate.getD 0
    metrics := data.metrics.getD zeroMetrics }

/-- The catch branch of the poll loop: status `error`, errorRate 1, uptime
"N/A", zeroed metrics. -/
def errorRecord (config : ServiceConfig) : ServiceStatus :=
  { name := config.name
    url := config.url
    description := config.description
    status := ServiceHealth.error
    uptime := "N/A"
    responseTime := 0
    errorRate := 1
    metrics := zeroMetrics }

/-- The per-service poll loop of `fetchServiceHealth`: one record is pushed
per configured service, from the success branch when the awaited request
yields a payload and from the catch branch when it throws.  The fetch outcome
(`none` = network error / timeout / non-2xx throw) is a parameter. -/
def fetchServiceHealth (configs : List ServiceConfig)
    (fetch : ServiceConfig → Option HealthPayload) : List ServiceStatus :=
  configs.map (fun config =>
    match fetch config with
    | some data => normalizeResponse config data
    | none => errorRecord config)

/-- The hard-coded `serviceConfigs` list of the source. -/
def serviceConfigs : List ServiceConfig :=
  [{ name := "Payments Service", url := "http://localhost:8001",
     description := "Handles instant payments and transactions" },
   { name := "Investments Service", url := "http://localhost:8002",
     description := "Personalized investment tracking and portfolio management" },
   { name := "Accounts Service", url := "http://localhost:8003",
     description := "Automated account services and customer management" }]

structure SystemOverview where
  totalRequests : ℚ
  activeConnections : ℚ
  totalAccounts : ℚ
  portfolioValue : ℚ
  paymentsProcessed : ℚ
  errorRate : Option ℚ
deriving DecidableEq

/-- The aggregation step of `fetchServiceHealth` (lines 899-914).  The
`errorRate` is `reduce(+)/length`; on an empty record list JS computes
`0/0 = NaN`, embedded as `none`.  The three named fields are
`find(name)?.metrics.requests_per_second ?? 0` lookups. -/
def aggregateOverview (newServices : List ServiceStatus) : SystemOverview :=
  { totalRequests :=
      (newServices.map (fun s => s.metrics.requests_per_second * 60)).sum
    activeConnections :=
      (newServices.map (fun s => s.metrics.active_connections)).sum
    totalAccounts :=
      ((newServices.find? (fun s => decide (s.name = "Accounts Service"))).map
        (fun s => s.metrics.requests_per_second)).getD 0
    portfolioValue :=
      ((newServices.find? (fun s => decide (s.name = "Investments Service"))).map
        (fun s => s.metrics.requests_per_second)).getD 0
    paymentsProcessed :=
      ((newServices.find? (fun s => decide (s.name = "Payments Service"))).map
        (fun s => s.metrics.requests_per_second)).getD 0
    errorRate :=
      if newServices.length = 0 then none
      else some ((newServices.map (fun s => s.errorRate)).sum /
        newServices.length) }

/-- C2 counterexample: on the empty service list the aggregation's errorRate
is the JS value `0/0 = NaN` (embedded `none`) — not the numeric 0 that an
all-zero overview requires, and not any value of \[0,1\] — even though the
remaining overview fields are all zero. -/
theorem empty_overview_counterexample :
    (aggregateOverview []).errorRate = none ∧
    (aggregateOverview []).errorRate ≠ some 0 ∧
    (aggregateOverview []).totalRequests = 0 ∧
    (aggregateOverview []).activeConnections = 0 ∧
    (aggregateOverview []).totalAccounts = 0 ∧
    (aggregateOverview []).portfolioValue = 0 ∧
    (aggregateOverview []).paymentsProcessed = 0 := by
  refine ⟨rfl, by simp [aggregateOverview], rfl, rfl, rfl, rfl, rfl⟩

/-- C2 amended: for every nonempty record list whose per-service error rates
lie in \[0,1\] (the ServiceRecord range), the aggregated errorRate is exactly
the arithmetic mean of the per-service rates and lies in \[0,1\]; on the
empty list the overview's numeric fields are zero but errorRate is the
non-numeric `0/0 = NaN`, not zero. -/
theorem aggregator_error_rate_mean (newServices : List ServiceStatus)
    (hne : newServices ≠ [])
    (hb : ∀ s ∈ newServices, 0 ≤ s.errorRate ∧ s.errorRate ≤ 1) :
    (aggregateOverview newServices).errorRate =
      some ((newServices.map (fun s => s.errorRate)).sum /
        newServices.length) ∧
    ∀ q, (aggregateOverview newServices).errorRate = some q →
      0 ≤ q ∧ q ≤ 1 := by
  have hlen0 : newServices.length ≠ 0 := fun h0 => hne (List.length_eq_zero.mp h0)
  have hpos : (0 : ℚ) < newServices.length := by
    exact_mod_cast Nat.pos_of_ne_zero hlen0
  have hsum0 : 0 ≤ (newServices.map (fun s => s.errorRate)).sum := by
    apply List.sum_nonneg
    intro x hx
    rcases List.mem_map.mp hx with ⟨s, hs, rfl⟩
    exact (hb s hs).1
  have hsum1 : (newServices.map (fun s => s.errorRate)).sum ≤
      (newServices.length : ℚ) := by
    have h := List.sum_le_card_nsmul (newServices.map (fun s => s.errorRate)) 1 ?_
    · simpa [nsmul_eq_mul] using h
    · intro x hx
      rcases List.mem_map.mp hx with ⟨s, hs, rfl⟩
      exact (hb s hs).2
  refine ⟨by simp [aggregateOverview, hlen0], ?_⟩
  intro q hq
  simp only [aggregateOverview, hlen0, if_false, Option.some.injEq] at hq
  rw [← hq]
  constructor
  · exact div_nonneg hsum0 hpos.le
  · rw [div_le_one hpos]
    exact hsum1

/-- C5: a poll cycle yields exactly one record per configured service; a
failed fetch yields the error record (status `error`, errorRate 1, zeroed
metrics), a successful fetch yields the normalization of its own payload, and
the record at any position depends only on that service's own fetch outcome
(per-service failures are isolated). -/
theorem poll_cycle_isolated (configs : List ServiceConfig)
    (fetch : ServiceConfig → Option HealthPayload) :
    (fetchServiceHealth configs fetch).length = configs.length ∧
    (∀ i : ℕ, ∀ config, configs[i]? = some config →
      (fetch config = none →
        (fetchServiceHealth configs fetch)[i]? = some (errorRecord config) ∧
        (errorRecord config).status = ServiceHealth.error ∧
        (errorRecord config).errorRate = 1 ∧
        (errorRecord config).metrics = zeroMetrics) ∧
      (∀ data, fetch config = some data →
        (fetchServiceHealth configs fetch)[i]? =
          some (normalizeResponse config data)) ∧
      (∀ fetch2 : ServiceConfig → Option HealthPayload,
        fetch2 config = fetch config →
        (fetchServiceHealth configs fetch2)[i]? =
          (fetchServiceHealth configs fetch)[i]?)) := by
  refine ⟨by simp [fetchServiceHealth], ?_⟩
  intro i config hconfig
  have hget : ∀ g : ServiceConfig → Option HealthPayload,
      (fetchServiceHealth configs g)[i]? =
        some (match g config with
          | some data => normalizeResponse config data
          | none => errorRecord config) := by
    intro g
    rw [fetchServiceHealth, List.getElem?_map, hconfig]
    rfl
  refine ⟨fun hfail => ⟨?_, rfl, rfl, rfl⟩, fun data hdata => ?_, fun fetch2 heq => ?_⟩
  · rw [hget fetch, hfail]
  · rw [hget fetch, hdata]
  · rw [hget fetch, hget fetch2, heq]

lemma find?_append_first {α : Type} (p : α → Bool) (pre post : List α) (a : α)
    (hpre : ∀ x ∈ pre, p x = false) (ha : p a = true) :
    (pre ++ a :: post).find? p = some a := by
  induction pre with
  | nil =>
      simp [List.find?_cons_of_pos _ ha]
  | cons x xs ih =>
      have hx : p x = false := hpre x (by simp)
      rw [List.cons_append, List.find?_cons_of_neg _ (by simp [hx])]
      exact ih (fun y hy => hpre y (by simp [hy]))

lemma rps_lookup_absent (nm : String) (l : List ServiceStatus)
    (h : ∀ s ∈ l, s.name ≠ nm) :
    ((l.find? (fun s => decide (s.name = nm))).map
      (fun s => s.metrics.requests_per_second)).getD 0 = 0 := by
  have hfind : l.find? (fun s => decide (s.name = nm)) = none := by
    rw [List.find?_eq_none]
    intro x hx
    simpa using h x hx
  rw [hfind]
  rfl

lemma rps_lookup_first (nm : String) (pre post : List ServiceStatus)
    (a : ServiceStatus) (ha : a.name = nm) (hpre : ∀ s ∈ pre, s.name ≠ nm) :
    (((pre ++ a :: post).find? (fun s => decide (s.name = nm))).map
      (fun s => s.metrics.requests_per_second)).getD 0 =
      a.metrics.requests_per_second := by
  rw [find?_append_first _ pre post a
    (fun x hx => by simpa using hpre x hx) (by simpa using ha)]
  rfl

/-- C10: the overview fields totalAccounts, portfolioValue and
paymentsProcessed are each the requests_per_second metric of the first
service whose name is exactly "Accounts Service", "Investments Service" or
"Payments Service" respectively, and default to 0 when no service of that
name is present — they are request rates, not account counts, dollar values
or payment totals. -/
theorem overview_fields_are_rps_lookups (newServices : List ServiceStatus) :
    ((∀ s ∈ newServices, s.name ≠ "Accounts Service") →
      (aggregateOverview newServices).totalAccounts = 0) ∧
    (∀ pre a post, newServices = pre ++ a :: post →
      a.name = "Accounts Service" →
      (∀ s ∈ pre, s.name ≠ "Accounts Service") →
      (aggregateOverview newServices).totalAccounts =
        a.metrics.requests_per_second) ∧
    ((∀ s ∈ newServices, s.name ≠ "Investments Service") →
      (aggregateOverview newServices).portfolioValue = 0) ∧
    (∀ pre a post, newServices = pre ++ a :: post →
      a.name = "Investments Service" →
      (∀ s ∈ pre, s.name ≠ "Investments Service") →
      (aggregateOverview newServices).portfolioValue =
        a.metrics.requests_per_second) ∧
    ((∀ s ∈ newServices, s.name ≠ "Payments Service") →
      (aggregateOverview newServices).paymentsProcessed = 0) ∧
    (∀ pre a post, newServices = pre ++ a :: post →
      a.name = "Payments Service" →
      (∀ s ∈ pre, s.name ≠ "Payments Service") →
      (aggregateOverview newServices).paymentsProcessed =
        a.metrics.requests_per_second) := by
  refine ⟨fun h => ?_, fun pre a post hsplit ha hpre => ?_,
    fun h => ?_, fun pre a post hsplit ha hpre => ?_,
    fun h => ?_, fun pre a post hsplit ha hpre => ?_⟩ <;>
    simp only [aggregateOverview] <;>
    first
      | exact rps_lookup_absent _ _ h
      | (subst hsplit; exact rps_lookup_first _ pre post a ha hpre)

/- ===================================================================
   Alert lifecycle: src/src/App.tsx, `generateRealtimeData`
   (mock-data variant, lines 253-287)
   =================================================================== -/

inductive AlertKind where
  | critical
  | warning
  | info
deriving DecidableEq

/-- `Alert` of the source (`type` is the alert kind). -/
structure Alert where
  id : String
  service : String
  type : AlertKind
  message : String
  timestamp : String
  resolved : Bool
deriving DecidableEq

/-- The data of a newly triggered alert.  In the source the id is
`Date.now().toString()` and service / type / message are drawn by random
index from fixed pools; the whole draw is a parameter here, and `none`
models the `Math.random() > 0.95` gate failing. -/
structure AlertTrigger where
  id : String
  service : String
  type : AlertKind
  message : String
  timestamp : String
deriving DecidableEq

def mkAlert (t : AlertTrigger) : Alert :=
  { id := t.id, service := t.service, type := t.type, message := t.message,
    timestamp := t.timestamp, resolved := false }

/-- The `newAlerts.forEach` pass: each not-yet-resolved alert flips to
resolved when its random draw (`Math.random() > 0.98`, the `res` oracle,
indexed by position) comes up true. -/
def resolveSweep (res : ℕ → Bool) : ℕ → List Alert → List Alert
  | _, [] => []
  | i, a :: rest =>
      (if !a.resolved && res i then { a with resolved := true } else a) ::
        resolveSweep res (i + 1) rest

/-- One alert-lifecycle update of `generateRealtimeData`: keep only the
unresolved alerts, append the newly triggered alert when one fires and fewer
than 5 alerts remain, then run the random resolution sweep. -/
def generateRealtimeAlerts (alerts : List Alert) (trigger : Option AlertTrigger)
    (res : ℕ → Bool) : List Alert :=
  let existingAlerts := alerts.filter (fun a => !a.resolved)
  let newAlerts :=
    match trigger with
    | some t =>
        if existingAlerts.length < 5 then existingAlerts ++ [mkAlert t]
        else existingAlerts
    | none => existingAlerts
  resolveSweep res 0 newAlerts

/-- `alerts.filter(a => !a.resolved).length`, the "active" count of the UI. -/
def activeCount (alerts : List Alert) : ℕ :=
  (alerts.filter (fun a => !a.resolved)).length

/-- A run of update cycles from the initial empty alert list; each step
carries that cycle's trigger draw and resolution oracle. -/
def runAlertCycles (steps : List (Option AlertTrigger × (ℕ → Bool))) :
    List Alert :=
  steps.foldl (fun st step => generateRealtimeAlerts st step.1 step.2) []

lemma resolveSweep_false (l : List Alert) :
    ∀ i, resolveSweep (fun _ => false) i l = l := by
  induction l with
  | nil => intro i; rfl
  | cons a rest ih =>
      intro i
      simp [resolveSweep, ih]

lemma activeCount_cons (a : Alert) (l : List Alert) :
    activeCount (a :: l) = (if a.resolved then 0 else 1) + activeCount l := by
  cases h : a.resolved
  · simp [activeCount, List.filter_cons, h]
    omega
  · simp [activeCount, List.filter_cons, h]

lemma activeCount_resolveSweep_le (res : ℕ → Bool) (l : List Alert) :
    ∀ i, activeCount (resolveSweep res i l) ≤ activeCount l := by
  induction l with
  | nil => intro i; exact le_refl _
  | cons a rest ih =>
      intro i
      by_cases hcond : (!a.resolved && res i) = true
      · rw [resolveSweep, if_pos hcond]
        rw [activeCount_cons, activeCount_cons]
        simp only [if_true]
        have := ih (i + 1)
        cases a.resolved <;> simp <;> omega
      · rw [resolveSweep, if_neg hcond]
        rw [activeCount_cons, activeCount_cons]
        have := ih (i + 1)
        omega

lemma activeCount_le_length (l : List Alert) : activeCount l ≤ l.length :=
  List.length_filter_le _ l

lemma filter_unresolved_idem (alerts : List Alert) :
    (alerts.filter (fun a => !a.resolved)).filter (fun a => !a.resolved) =
      alerts.filter (fun a => !a.resolved) := by
  apply List.filter_eq_self.mpr
  intro a ha
  exact (List.mem_filter.mp ha).2

lemma activeCount_filter_unresolved (alerts : List Alert) :
    activeCount (alerts.filter (fun a => !a.resolved)) = activeCount alerts := by
  unfold activeCount
  rw [filter_unresolved_idem]

lemma activeCount_step_le (alerts : List Alert) (trigger : Option AlertTrigger)
    (res : ℕ → Bool) :
    activeCount (generateRealtimeAlerts alerts trigger res) ≤
      max (activeCount alerts) 5 := by
  unfold generateRealtimeAlerts
  have hex : activeCount (alerts.filter (fun a => !a.resolved)) =
      activeCount alerts := activeCount_filter_unresolved alerts
  have hexlen : (alerts.filter (fun a => !a.resolved)).length =
      activeCount alerts := rfl
  cases trigger with
  | none =>
      calc activeCount (resolveSweep res 0 (alerts.filter (fun a => !a.resolved)))
          ≤ activeCount (alerts.filter (fun a => !a.resolved)) :=
            activeCount_resolveSweep_le _ _ 0
        _ = activeCount alerts := hex
        _ ≤ max (activeCount alerts) 5 := le_max_left _ _
  | some t =>
      by_cases hlt : (alerts.filter (fun a => !a.resolved)).length < 5
      · simp only [hlt, if_true]
        calc activeCount (resolveSweep res 0
              ((alerts.filter (fun a => !a.resolved)) ++ [mkAlert t]))
            ≤ activeCount ((alerts.filter (fun a => !a.resolved)) ++ [mkAlert t]) :=
              activeCount_resolveSweep_le _ _ 0
          _ ≤ ((alerts.filter (fun a => !a.resolved)) ++ [mkAlert t]).length :=
              activeCount_le_length _
          _ ≤ 5 := by
              rw [List.length_append]
              simp only [List.length_singleton]
              omega
          _ ≤ max (activeCount alerts) 5 := le_max_right _ _
      · simp only [hlt, if_false]
        calc activeCount (resolveSweep res 0 (alerts.filter (fun a => !a.resolved)))
            ≤ activeCount (alerts.filter (fun a => !a.resolved)) :=
              activeCount_resolveSweep_le _ _ 0
          _ = activeCount alerts := hex
          _ ≤ max (activeCount alerts) 5 := le_max_left _ _

/-- C7: in every state reachable from the initial empty alert list the
unresolved alert count is at most 5, and a trigger arriving while the
unresolved set is at (or beyond) capacity is discarded: the cycle behaves
exactly as if no alert had been triggered, so with no auto-resolution the
unresolved count stays where it was. -/
theorem alert_capacity_cap :
    (∀ steps, activeCount (runAlertCycles steps) ≤ 5) ∧
    (∀ alerts t res, 5 ≤ activeCount alerts →
      generateRealtimeAlerts alerts (some t) res =
        generateRealtimeAlerts alerts none res) ∧
    (∀ alerts t, 5 ≤ activeCount alerts →
      activeCount (generateRealtimeAlerts alerts (some t) (fun _ => false)) =
        activeCount alerts) := by
  have hdiscard : ∀ alerts t res, 5 ≤ activeCount alerts →
      generateRealtimeAlerts alerts (some t) res =
        generateRealtimeAlerts alerts none res := by
    intro alerts t res h5
    have hnot : ¬ ((alerts.filter (fun a => !a.resolved)).length < 5) := by
      have hlen : (alerts.filter (fun a => !a.resolved)).length =
        activeCount alerts := rfl
      omega
    simp only [generateRealtimeAlerts, if_neg hnot]
  refine ⟨?_, hdiscard, ?_⟩
  · have hinv : ∀ (steps : List (Option AlertTrigger × (ℕ → Bool)))
        (st : List Alert), activeCount st ≤ 5 →
        activeCount (steps.foldl
          (fun s (p : Option AlertTrigger × (ℕ → Bool)) =>
            generateRealtimeAlerts s p.1 p.2) st) ≤ 5 := by
      intro steps
      induction steps with
      | nil => intro st h; exact h
      | cons p rest ih =>
          intro st h
          simp only [List.foldl_cons]
          apply ih
          have hstep := activeCount_step_le st p.1 p.2
          omega
    intro steps
    exact hinv steps [] (by simp [activeCount])
  · intro alerts t h5
    rw [hdiscard alerts t (fun _ => false) h5]
    simp only [generateRealtimeAlerts]
    rw [resolveSweep_false]
    exact activeCount_filter_unresolved alerts

/-- A trigger drawn from the source's pools: service "Payments Service",
kind warning. -/
def dupTrigger1 : AlertTrigger :=
  { id := "1700000000000", service := "Payments Service",
    type := AlertKind.warning,
    message := "High latency detected - 95th percentile above threshold",
    timestamp := "t1" }

/-- The same (service, kind) condition triggered again on the next cycle,
with the next `Date.now()` id. -/
def dupTrigger2 : AlertTrigger :=
  { id := "1700000005000", service := "Payments Service",
    type := AlertKind.warning,
    message := "High latency detected - 95th percentile above threshold",
    timestamp := "t2" }

/-- C6 counterexample: triggering the same (service, kind) condition on two
consecutive cycles with no resolution in between yields two unresolved
alerts with that key — the code has no (service, kind) dedup. -/
theorem alert_dedup_counterexample :
    ((generateRealtimeAlerts
        (generateRealtimeAlerts [] (some dupTrigger1) (fun _ => false))
        (some dupTrigger2) (fun _ => false)).filter
      (fun a => !a.resolved && decide (a.service = "Payments Service") &&
        decide (a.type = AlertKind.warning))).length = 2 := by
  rfl

/-- C6 amended: the cycle applies no (service, kind) dedup — whenever a
trigger fires while the unresolved count is below the cap of 5, the new
alert is appended even when an unresolved alert with the same
(service, kind) key already exists, so with no auto-resolution the
unresolved count for that key grows by one; the capacity cap is the only
admission guard. -/
theorem alert_no_dedup (alerts : List Alert) (t : AlertTrigger)
    (hcap : activeCount alerts < 5) :
    ((generateRealtimeAlerts alerts (some t) (fun _ => false)).filter
        (fun a => !a.resolved && decide (a.service = t.service) &&
          decide (a.type = t.type))).length =
      (alerts.filter (fun a => !a.resolved && decide (a.service = t.service) &&
          decide (a.type = t.type))).length + 1 := by
  have hlt : (alerts.filter (fun a => !a.resolved)).length < 5 := hcap
  simp only [generateRealtimeAlerts, if_pos hlt]
  rw [resolveSweep_false]
  rw [List.filter_append]
  have hmk : (([mkAlert t]).filter
      (fun a => !a.resolved && decide (a.service = t.service) &&
        decide (a.type = t.type))) = [mkAlert t] := by
    simp [mkAlert]
  rw [hmk, List.length_append]
  simp only [List.length_singleton]
  congr 1
  rw [List.filter_filter]
  congr 1
  apply List.filter_congr
  intro a ha
  cases h : a.resolved <;> simp [h]

/-- Unfolding of one alert cycle: sweep over the admitted list. -/
lemma generateRealtimeAlerts_eq (alerts : List Alert)
    (trigger : Option AlertTrigger) (res : ℕ → Bool) :
    generateRealtimeAlerts alerts trigger res =
      resolveSweep res 0 (match trigger with
        | some t =>
            if (alerts.filter (fun a => !a.resolved)).length < 5
            then alerts.filter (fun a => !a.resolved) ++ [mkAlert t]
            else alerts.filter (fun a => !a.resolved)
        | none => alerts.filter (fun a => !a.resolved)) := rfl

lemma mem_resolveSweep_self_or_flip (res : ℕ → Bool) (l : List Alert)
    (a : Alert) (ha : a ∈ l) :
    ∀ i, a ∈ resolveSweep res i l ∨
      { a with resolved := true } ∈ resolveSweep res i l := by
  induction l with
  | nil => cases ha
  | cons x rest ih =>
      intro i
      rcases List.mem_cons.mp ha with rfl | hmem
      · by_cases hcond : (!a.resolved && res i) = true
        · right
          rw [resolveSweep, if_pos hcond]
          exact List.mem_cons_self _ _
        · left
          rw [resolveSweep, if_neg hcond]
          exact List.mem_cons_self _ _
      · rcases ih hmem (i + 1) with h | h
        · left
          rw [resolveSweep]
          exact List.mem_cons_of_mem _ h
        · right
          rw [resolveSweep]
          exact List.mem_cons_of_mem _ h

lemma mem_of_mem_resolveSweep (res : ℕ → Bool) (l : List Alert) :
    ∀ i b, b ∈ resolveSweep res i l →
      ∃ a ∈ l, b = a ∨ (a.resolved = false ∧
        b = { a with resolved := true }) := by
  induction l with
  | nil => intro i b hb; cases hb
  | cons x rest ih =>
      intro i b hb
      rw [resolveSweep] at hb
      rcases List.mem_cons.mp hb with hb1 | hb2
      · by_cases hcond : (!x.resolved && res i) = true
        · simp only [Bool.and_eq_true, Bool.not_eq_true'] at hcond
          refine ⟨x, List.mem_cons_self _ _, Or.inr ⟨hcond.1, ?_⟩⟩
          rw [hb1, if_pos]
          simp [hcond.1, hcond.2]
        · exact ⟨x, List.mem_cons_self _ _, Or.inl (by rw [hb1, if_neg hcond])⟩
      · rcases ih (i + 1) b hb2 with ⟨a, hal, hor⟩
        exact ⟨a, List.mem_cons_of_mem _ hal, hor⟩

/-- The trigger of the C8 counterexample run, drawn from the source's pools. -/
def lostTrigger : AlertTrigger :=
  { id := "1700000000042", service := "Accounts Service",
    type := AlertKind.info, message := "Rate limiting activated",
    timestamp := "t0" }

/-- C8 counterexample: an alert created and auto-resolved in one cycle is
deleted by the very next cycle even though the active count is 0, far below
the cap of 5 — resolved alerts are dropped at the start of every cycle, not
retained until a capacity-driven eviction. -/
theorem alert_retention_counterexample :
    (generateRealtimeAlerts [] (some lostTrigger) (fun _ => true)).length = 1 ∧
    activeCount
      (generateRealtimeAlerts [] (some lostTrigger) (fun _ => true)) = 0 ∧
    generateRealtimeAlerts
      (generateRealtimeAlerts [] (some lostTrigger) (fun _ => true))
      none (fun _ => false) = [] := by
  refine ⟨rfl, rfl, rfl⟩

/-- C8 amended: an update cycle never deletes an unresolved alert — every
alert that is unresolved before the cycle is still present after it, with at
most its resolved flag flipped — but every already-resolved alert is dropped
at the start of the cycle regardless of the capacity cap: each survivor of a
cycle stems from an unresolved input alert or from the cycle's own trigger. -/
theorem alert_cycle_retention (alerts : List Alert)
    (trigger : Option AlertTrigger) (res : ℕ → Bool) :
    (∀ a ∈ alerts, a.resolved = false →
      a ∈ generateRealtimeAlerts alerts trigger res ∨
      { a with resolved := true } ∈ generateRealtimeAlerts alerts trigger res) ∧
    (∀ b ∈ generateRealtimeAlerts alerts trigger res,
      (∃ a ∈ alerts, a.resolved = false ∧
        (b = a ∨ b = { a with resolved := true })) ∨
      (∃ t, trigger = some t ∧
        (b = mkAlert t ∨ b = { mkAlert t with resolved := true }))) := by
  constructor
  · intro a ha hres
    rw [generateRealtimeAlerts_eq]
    have hex : a ∈ alerts.filter (fun x => !x.resolved) :=
      List.mem_filter.mpr ⟨ha, by simp [hres]⟩
    apply mem_resolveSweep_self_or_flip
    cases trigger with
    | none => exact hex
    | some t =>
        by_cases h5 : (alerts.filter (fun x => !x.resolved)).length < 5
        · simp only [if_pos h5]
          exact List.mem_append_left _ hex
        · simp only [if_neg h5]
          exact hex
  · intro b hb
    rw [generateRealtimeAlerts_eq] at hb
    rcases mem_of_mem_resolveSweep res _ 0 b hb with ⟨a, hmem, hor⟩
    have hsplit : a ∈ alerts.filter (fun x => !x.resolved) ∨
        ∃ t, trigger = some t ∧ a = mkAlert t := by
      cases trigger with
      | none => exact Or.inl hmem
      | some t =>
          by_cases h5 : (alerts.filter (fun x => !x.resolved)).length < 5
          · simp only [if_pos h5] at hmem
            rcases List.mem_append.mp hmem with h | h
            · exact Or.inl h
            · exact Or.inr ⟨t, rfl, List.mem_singleton.mp h⟩
          · simp only [if_neg h5] at hmem
            exact Or.inl hmem
    rcases hsplit with hex | ⟨t, htrig, rfl⟩
    · have hfa := List.mem_filter.mp hex
      left
      refine ⟨a, hfa.1, by simpa using hfa.2, ?_⟩
      rcases hor with h | ⟨_, h⟩
      · exact Or.inl h
      · exact Or.inr h
    · right
      refine ⟨t, htrig, ?_⟩
      rcases hor with h | ⟨_, h⟩
      · exact Or.inl h
      · exact Or.inr h

/- ===================================================================
   Alert resolution write: spec-modelled
   =================================================================== -/

/-- Modelled from the spec: the repository's sources contain no
implementation of the presentation layer's only write, `resolveAlert(id)` —
the spec declares it in its external interface and gives its round-trip
behaviour (resolving an id present in the unresolved set marks exactly that
alert resolved; resolving an unknown id is a no-op).  It is modelled as
marking every alert whose id matches as resolved and leaving all other
alerts unchanged. -/
def resolveAlert (alerts : List Alert) (targetId : String) : List Alert :=
  alerts.map (fun a =>
    if a.id = targetId then { a with resolved := true } else a)

lemma resolveAlert_nil (targetId : String) : resolveAlert [] targetId = [] := rfl

lemma resolveAlert_cons (a : Alert) (rest : List Alert) (targetId : String) :
    resolveAlert (a :: rest) targetId =
      (if a.id = targetId then { a with resolved := true } else a) ::
        resolveAlert rest targetId := rfl

lemma resolveAlert_not_found (alerts : List Alert) (targetId : String)
    (h : ∀ a ∈ alerts, a.id ≠ targetId) :
    resolveAlert alerts targetId = alerts := by
  induction alerts with
  | nil => rfl
  | cons a rest ih =>
      rw [resolveAlert_cons, if_neg (h a (List.mem_cons_self _ _)),
        ih (fun x hx => h x (List.mem_cons_of_mem _ hx))]

lemma resolveAlert_activeCount (alerts : List Alert) (targetId : String) :
    (alerts.map (fun x => x.id)).Nodup →
    ∀ a ∈ alerts, a.id = targetId → a.resolved = false →
    activeCount (resolveAlert alerts targetId) + 1 = activeCount alerts := by
  induction alerts with
  | nil => intro _ a ha; cases ha
  | cons x rest ih =>
      intro hnd a ha hid hres
      have hnd2 : x.id ∉ rest.map (fun y => y.id) ∧
          (rest.map (fun y => y.id)).Nodup := by
        rw [List.map_cons, List.nodup_cons] at hnd
        exact hnd
      rcases List.mem_cons.mp ha with rfl | hmem
      · have hrest : ∀ b ∈ rest, b.id ≠ targetId := by
          intro b hb hbid
          apply hnd2.1
          have hbm : b.id ∈ rest.map (fun y => y.id) :=
            List.mem_map_of_mem _ hb
          rw [hbid, ← hid] at hbm
          exact hbm
        rw [resolveAlert_cons, if_pos hid, resolveAlert_not_found rest targetId hrest]
        rw [activeCount_cons, activeCount_cons, hres]
        simp
        omega
      · have hx : x.id ≠ targetId := by
          intro hxid
          apply hnd2.1
          have ham : a.id ∈ rest.map (fun y => y.id) :=
            List.mem_map_of_mem _ hmem
          rw [hid, ← hxid] at ham
          exact ham
        rw [resolveAlert_cons, if_neg hx, activeCount_cons, activeCount_cons]
        have := ih hnd2.2 a hmem hid hres
        omega

/-- C9 (spec-modelled): resolving an id that matches no alert leaves the
alert set unchanged, and resolving the id of an unresolved alert (ids being
unique) puts exactly that alert, resolved, into the set, keeps every other
alert, and decreases the active count by one. -/
theorem resolveAlert_round_trip (alerts : List Alert) (targetId : String) :
    ((∀ a ∈ alerts, a.id ≠ targetId) →
      resolveAlert alerts targetId = alerts) ∧
    (∀ a ∈ alerts, a.id = targetId → a.resolved = false →
      (alerts.map (fun x => x.id)).Nodup →
      ({ a with resolved := true } ∈ resolveAlert alerts targetId ∧
       (∀ b ∈ alerts, b.id ≠ targetId → b ∈ resolveAlert alerts targetId) ∧
       activeCount (resolveAlert alerts targetId) + 1 = activeCount alerts)) := by
  refine ⟨resolveAlert_not_found alerts targetId, ?_⟩
  intro a ha hid hres hnd
  refine ⟨?_, ?_, resolveAlert_activeCount alerts targetId hnd a ha hid hres⟩
  · exact List.mem_map.mpr ⟨a, ha, by rw [if_pos hid]⟩
  · intro b hb hbid
    exact List.mem_map.mpr ⟨b, hb, by rw [if_neg hbid]⟩

/- ===================================================================
   Concrete witnesses
   =================================================================== -/

def payConfig : ServiceConfig :=
  { name := "Payments Service", url := "http://localhost:8001",
    description := "Handles instant payments and transactions" }

def invConfig : ServiceConfig :=
  { name := "Investments Service", url := "http://localhost:8002",
    description := "Personalized investment tracking and portfolio management" }

/-- A healthy `/health` payload for the witnesses. -/
def wPayload : HealthPayload :=
  { status := some ServiceHealth.healthy, uptime := some "99.95%",
    responseTime := some 45, errorRate := some (1 / 100),
    metrics := some ⟨20, 50, 120, 40⟩ }

def wRecordA : ServiceStatus :=
  { name := "Payments Service", url := "http://localhost:8001",
    description := "Handles instant payments and transactions",
    status := ServiceHealth.healthy, uptime := "99.95%",
    responseTime := 45, errorRate := 1 / 50, metrics := ⟨20, 50, 120, 40⟩ }

def wRecordB : ServiceStatus :=
  { name := "Accounts Service", url := "http://localhost:8003",
    description := "Automated account services and customer management",
    status := ServiceHealth.healthy, uptime := "99.5%",
    responseTime := 55, errorRate := 3 / 100, metrics := ⟨25, 40, 60, 15⟩ }

def wRecordC : ServiceStatus :=
  { name := "Investments Service", url := "http://localhost:8002",
    description := "Personalized investment tracking and portfolio management",
    status := ServiceHealth.warning, uptime := "99.8%",
    responseTime := 50, errorRate := 1 / 100, metrics := ⟨22, 55, 80, 25⟩ }

/-- Witness for C2: on a concrete two-record list (rates 0.02 and 0.03) the
aggregated errorRate is their mean 0.025 and lies in \[0,1\]. -/
theorem aggregator_error_rate_mean_witness :
    (aggregateOverview [wRecordA, wRecordB]).errorRate = some (1 / 40) ∧
    0 ≤ (1 / 40 : ℚ) ∧ (1 / 40 : ℚ) ≤ 1 := by
  have h := aggregator_error_rate_mean [wRecordA, wRecordB]
    (List.cons_ne_nil _ _)
    (by
      simp [List.forall_mem_cons, wRecordA, wRecordB]
      norm_num)
  have h1 : (aggregateOverview [wRecordA, wRecordB]).errorRate =
      some (1 / 40) := by
    rw [h.1]
    simp [wRecordA, wRecordB]
    norm_num
  have h2 := h.2 (1 / 40) h1
  exact ⟨h1, h2.1, h2.2⟩

/-- The fetch outcome of the C5 witness run: the Investments Service request
throws, the other two succeed. -/
def wFetch : ServiceConfig → Option HealthPayload :=
  fun c => if c.name = "Investments Service" then none else some wPayload

/-- Witness for C5: on the source's three configs with the Investments
fetch failing, the cycle still yields three records, the failed service's
record is the error record, and the Payments record is the normalization of
its own payload. -/
theorem poll_cycle_isolated_witness :
    (fetchServiceHealth serviceConfigs wFetch).length = 3 ∧
    (fetchServiceHealth serviceConfigs wFetch)[1]? =
      some (errorRecord invConfig) ∧
    (errorRecord invConfig).status = ServiceHealth.error ∧
    (errorRecord invConfig).errorRate = 1 ∧
    (fetchServiceHealth serviceConfigs wFetch)[0]? =
      some (normalizeResponse payConfig wPayload) := by
  have h := poll_cycle_isolated serviceConfigs wFetch
  have h1 := h.2 1 invConfig (by rfl)
  have hfail := h1.1 (by rfl)
  have h0 := h.2 0 payConfig (by rfl)
  have hsucc := h0.2.1 wPayload (by rfl)
  refine ⟨?_, hfail.1, hfail.2.1, hfail.2.2.1, hsucc⟩
  rw [h.1]
  rfl

/-- Witness for C10: on a record list containing all three service names,
the three overview fields pick up each service's requests_per_second. -/
theorem overview_fields_witness :
    (aggregateOverview [wRecordA, wRecordC, wRecordB]).totalAccounts = 60 ∧
    (aggregateOverview [wRecordA, wRecordC, wRecordB]).portfolioValue = 80 ∧
    (aggregateOverview [wRecordA, wRecordC, wRecordB]).paymentsProcessed =
      120 := by
  have h := overview_fields_are_rps_lookups [wRecordA, wRecordC, wRecordB]
  refine ⟨?_, ?_, ?_⟩
  · have ha := h.2.1 [wRecordA, wRecordC] wRecordB [] rfl rfl (by decide)
    rw [ha]
    rfl
  · have hi := h.2.2.2.1 [wRecordA] wRecordC [wRecordB] rfl rfl (by decide)
    rw [hi]
    rfl
  · have hp := h.2.2.2.2.2 [] wRecordA [wRecordC, wRecordB] rfl rfl (by decide)
    rw [hp]
    rfl

def wAlert1 : Alert :=
  { id := "1", service := "Payments Service", type := AlertKind.warning,
    message := "Memory usage approaching limit", timestamp := "t",
    resolved := false }

def wAlert2 : Alert := { wAlert1 with id := "2" }

def wAlert3 : Alert := { wAlert1 with id := "3" }

def wAlert4 : Alert := { wAlert1 with id := "4" }

def wAlert5 : Alert := { wAlert1 with id := "5" }

/-- A full alert set: five unresolved alerts, the configured maximum. -/
def fullAlerts : List Alert := [wAlert1, wAlert2, wAlert3, wAlert4, wAlert5]

/-- Witness for C7: one concrete cycle run stays within the cap, and on a
concrete full (five unresolved) alert set a new trigger is discarded and the
active count stays at five. -/
theorem alert_capacity_cap_witness :
    activeCount (runAlertCycles [(some dupTrigger1, fun _ => false)]) ≤ 5 ∧
    generateRealtimeAlerts fullAlerts (some dupTrigger1) (fun _ => false) =
      generateRealtimeAlerts fullAlerts none (fun _ => false) ∧
    activeCount (generateRealtimeAlerts fullAlerts (some dupTrigger1)
      (fun _ => false)) = activeCount fullAlerts :=
  ⟨alert_capacity_cap.1 [(some dupTrigger1, fun _ => false)],
   alert_capacity_cap.2.1 fullAlerts dupTrigger1 (fun _ => false) (by decide),
   alert_capacity_cap.2.2 fullAlerts dupTrigger1 (by decide)⟩

/-- Witness for C6: with one unresolved Payments/warning alert in place
(count 1 < 5), a second trigger with the same (service, kind) raises the
unresolved count for that key to two. -/
theorem alert_no_dedup_witness :
    ((generateRealtimeAlerts [mkAlert dupTrigger1] (some dupTrigger2)
        (fun _ => false)).filter
      (fun a => !a.resolved && decide (a.service = dupTrigger2.service) &&
        decide (a.type = dupTrigger2.type))).length = 2 := by
  have h := alert_no_dedup [mkAlert dupTrigger1] dupTrigger2 (by decide)
  rw [h]
  rfl

/-- Witness for C8: a concrete unresolved alert survives a no-trigger,
no-resolution cycle (possibly with its resolved flag flipped). -/
theorem alert_cycle_retention_witness :
    mkAlert dupTrigger1 ∈
      generateRealtimeAlerts [mkAlert dupTrigger1] none (fun _ => false) ∨
    { mkAlert dupTrigger1 with resolved := true } ∈
      generateRealtimeAlerts [mkAlert dupTrigger1] none (fun _ => false) :=
  (alert_cycle_retention [mkAlert dupTrigger1] none (fun _ => false)).1
    (mkAlert dupTrigger1) (List.mem_singleton.mpr rfl) rfl

/-- Witness for C9: on a concrete two-alert set with distinct ids, resolving
the first id marks exactly that alert resolved and drops the active count
from two to one, while resolving an unknown id is a no-op. -/
theorem resolveAlert_round_trip_witness :
    { mkAlert dupTrigger1 with resolved := true } ∈
      resolveAlert [mkAlert dupTrigger1, mkAlert lostTrigger]
        "1700000000000" ∧
    activeCount (resolveAlert [mkAlert dupTrigger1, mkAlert lostTrigger]
        "1700000000000") + 1 =
      activeCount [mkAlert dupTrigger1, mkAlert lostTrigger] ∧
    resolveAlert [mkAlert dupTrigger1, mkAlert lostTrigger] "unknown-id" =
      [mkAlert dupTrigger1, mkAlert lostTrigger] := by
  have h := resolveAlert_round_trip [mkAlert dupTrigger1, mkAlert lostTrigger]
    "1700000000000"
  have h2 := h.2 (mkAlert dupTrigger1) (by decide) (by rfl) (by rfl) (by decide)
  have hno := resolveAlert_round_trip [mkAlert dupTrigger1, mkAlert lostTrigger]
    "unknown-id"
  exact ⟨h2.1, h2.2.2, hno.1 (by decide)⟩
